import Mathlib

/-!
Verification development for the `auto_causality` repository
(`src/auto_causality/datasets.py` plus the orchestration layer described by
the specification).  Pandas dataframes are shallowly embedded as association
lists from column names to columns of cells; the dataset loaders
(`amazon_reviews`, `synth_ihdp`, `synth_acic`) and the preprocessor
(`preprocess_dataset`) are translated statement by statement from the
Python source.  Remote CSV downloads, the external featurizer and the
numpy random generator are passed in as explicit parameters.
-/

set_option maxRecDepth 100000

namespace AutoCausality

/-- Shallow embedding of a pandas cell value: integer, rational (standing in
for a finite float), string, or NaN. -/
inductive Cell where
  | int (n : Int)
  | real (q : ℚ)
  | str (v : String)
  | nan
deriving DecidableEq, Repr

/-- A dataframe column is a list of cells (one per row). -/
abbrev Col := List Cell

/-- Shallow embedding of a pandas `DataFrame`: an ordered association list of
named columns. -/
structure DataFrame where
  cols : List (String × Col)
deriving DecidableEq, Repr

/-- The list of column names, in order (pandas `df.columns`). -/
def colNames (df : DataFrame) : List String :=
  df.cols.map Prod.fst

/-- Column lookup by name (pandas `df[name]`); first match wins. -/
def getCol? (df : DataFrame) (name : String) : Option Col :=
  (df.cols.find? (fun p => p.1 == name)).map Prod.snd

/-- Column assignment (pandas `df[name] = col`): overwrite a matching column
in place, otherwise append a new column at the end. -/
def setCol (df : DataFrame) (name : String) (c : Col) : DataFrame :=
  if name ∈ colNames df then
    ⟨df.cols.map (fun p => if p.1 = name then (name, c) else p)⟩
  else
    ⟨df.cols ++ [(name, c)]⟩

/-- Drop the columns with the given names (pandas `df.drop(columns=ns)`). -/
def dropCols (df : DataFrame) (names : List String) : DataFrame :=
  ⟨df.cols.filter (fun p => !names.contains p.1)⟩

/-- Rename every column named `old` to `new`
(pandas `df.rename(columns={old: new})`). -/
def renameCol (df : DataFrame) (old new : String) : DataFrame :=
  ⟨df.cols.map (fun p => if p.1 = old then (new, p.2) else p)⟩

/-- Positional column-name assignment (pandas `df.columns = names`), which
raises unless the length matches. -/
def setColumns (df : DataFrame) (names : List String) : Option DataFrame :=
  if names.length = df.cols.length then
    some ⟨names.zip (df.cols.map Prod.snd)⟩
  else
    none

/-- Number of rows (pandas `len(df)`), read off the first column. -/
def nRows (df : DataFrame) : Nat :=
  match df.cols with
  | [] => 0
  | (_, c) :: _ => c.length

/-- Integer coercion of one cell, following numpy `astype(int)`: integers
pass through, finite floats truncate toward zero, strings must spell an
integer literal, NaN fails. -/
def cellToInt? : Cell → Option Int
  | .int n => some n
  | .real q => some (Int.tdiv q.num q.den)
  | .str v => v.toInt?
  | .nan => none

/-- Whether a cell already holds an integer value. -/
def cellIsInt : Cell → Bool
  | .int _ => true
  | _ => false

/-- Integer coercion of a whole column (`df[col].astype(int)`): fails if any
cell fails. -/
def colToInt? : Col → Option Col
  | [] => some []
  | v :: rest =>
    match cellToInt? v, colToInt? rest with
    | some n, some rest' => some (Cell.int n :: rest')
    | _, _ => none

/-- Python truthiness of a cell (used by `row["y1"] if row["z"] else
row["y0"]`): nonzero numbers, nonempty strings and NaN are truthy. -/
def cellTruthy : Cell → Bool
  | .int n => n != 0
  | .real q => q != 0
  | .str v => v != ""
  | .nan => true

/-- Whether `pat` occurs at the start of `l`. -/
def isPref : List Char → List Char → Bool
  | [], _ => true
  | _ :: _, [] => false
  | a :: as, b :: bs => a = b && isPref as bs

/-- Whether `pat` occurs contiguously anywhere inside `l` (Python `pat in s`
on strings). -/
def subOf (pat : List Char) : List Char → Bool
  | [] => isPref pat []
  | c :: rest => isPref pat (c :: rest) || subOf pat rest

/-- Errors raised by the dataset loaders: a missing key, or a shape mismatch
in a library call. -/
inductive LoadError where
  | keyError
  | shapeError
deriving DecidableEq, Repr

/-- Errors raised by `amazon_reviews`: reading the local variable `url`
before assignment, or a library shape mismatch. -/
inductive AmazonError where
  | unboundLocalUrl
  | shapeError
deriving DecidableEq, Repr

/-- Google-drive URL for the positive-rating Amazon file (source line 45). -/
def urlPos : String :=
  "https://drive.google.com/file/d/167CYEnYinePTNtKpVpsg0BVkoTwOwQfK/view?usp=sharing"

/-- Google-drive URL for the negative-rating Amazon file (source line 47). -/
def urlNeg : String :=
  "https://drive.google.com/file/d/1b-MPNqxCyWSJE5uyn5-VJUwC8056HM8u/view?usp=sharing"

/-- The 302 column names assigned by `amazon_reviews` (source line 51). -/
def amazonCols : List String :=
  ["treatment", "y_factual"] ++ (List.range' 1 300).map (fun i => "x_" ++ toString i)

/-- Embedding of `amazon_reviews` (source lines 6-59).  The failed
`assert rating in ["pos", "neg"]` is caught and only printed, so control
continues; `url` is a local that is assigned only for `"pos"` or `"neg"`.
Whether `gdown` imports, and the downloaded CSV, are parameters.  The
`else` branch prints a message mentioning `url` and returns `None`. -/
def amazon_reviews (gdownAvail : Bool) (fetch : String → DataFrame)
    (rating : String) : Except AmazonError (Option DataFrame) :=
  let url? : Option String :=
    if rating = "pos" then some urlPos
    else if rating = "neg" then some urlNeg
    else none
  if gdownAvail then
    match url? with
    | none => .error .unboundLocalUrl
    | some u =>
      let df := fetch u
      if (colNames df).length < 5 then .error .shapeError
      else
        let toDrop := [(colNames df).getD 2 "", (colNames df).getD 3 "",
          (colNames df).getD 4 ""]
        let df2 := dropCols df toDrop
        match setColumns df2 amazonCols with
        | none => .error .shapeError
        | some df3 => .ok (some df3)
  else
    match url? with
    | none => .error .unboundLocalUrl
    | some _ => .ok none

/-- The 30 column names assigned by `synth_ihdp` (source lines 87-96). -/
def ihdpColNames : List String :=
  ["treatment", "y_factual", "y_cfactual", "mu0", "mu1"] ++
    (List.range' 1 25).map (fun i => "x" ++ toString i)

/-- Embedding of `synth_ihdp` (source lines 62-102); the raw downloaded CSV
is a parameter.  Assigns the 30 column names, then drops every column whose
name contains `"y_cfactual"` or `"mu"` as a substring. -/
def synth_ihdp (raw : DataFrame) : Except LoadError DataFrame :=
  match setColumns raw ihdpColNames with
  | none => .error .shapeError
  | some d =>
    let ignorePatterns := ["y_cfactual", "mu"]
    let ignoreCols := (colNames d).filter
      (fun c => ignorePatterns.any (fun s => subOf s.toList c.toList))
    .ok (dropCols d ignoreCols)

/-- Embedding of `synth_acic` (source lines 105-144); the two downloaded
CSVs (`x.csv` covariates and the `zymu_{condition}` frame) are parameters.
Computes `y_factual` row-wise as `y1 if z else y0`, concatenates
`[z, y_factual, covariates]` and renames `z` to `treatment`. -/
def synth_acic (covariates z_y_mu : DataFrame) (condition : Nat) :
    Except LoadError DataFrame :=
  let _ := condition
  match getCol? z_y_mu "z", getCol? z_y_mu "y0", getCol? z_y_mu "y1" with
  | some zc, some y0c, some y1c =>
    let yf : Col := (List.range (nRows z_y_mu)).map (fun i =>
      if cellTruthy (zc.getD i Cell.nan) then y1c.getD i Cell.nan
      else y0c.getD i Cell.nan)
    let data : DataFrame := ⟨[("z", zc), ("y_factual", yf)] ++ covariates.cols⟩
    .ok (renameCol data "z" "treatment")
  | _, _, _ => .error .keyError

/-- Errors arising in `preprocess_dataset`: a missing treatment column
(pandas `KeyError`), the library coercion error raised by `astype(int)` on
non-coercible values (pandas/numpy `ValueError`), and — for comparison with
the specification's error taxonomy — the `InvalidTreatmentError` the spec
names, which the source never raises. -/
inductive PpError where
  | keyError
  | valueError
  | invalidTreatmentError
deriving DecidableEq, Repr

/-- Modelled from the spec: `featurize` (imported from
`auto_causality.utils`, which is not under `src/`) consumes a dataframe, a
feature-column list, columns to exclude from transformation, and a
drop-first flag, and returns a transformed dataframe; columns that are
excluded, or are not in the feature list, pass through unchanged, while
each feature column is expanded into encoder-chosen columns, here an opaque
parameter `enc`. -/
def featurize (enc : String → Col → List (String × Col)) (df : DataFrame)
    (features : List String) (excludeCols : List String)
    (dropFirst : Bool) : DataFrame :=
  let _ := dropFirst
  ⟨df.cols.flatMap (fun p =>
    if features.contains p.1 && !excludeCols.contains p.1 then enc p.1 p.2
    else [p])⟩

/-- The column produced by `np.random.randint(0, 2, size=n)` given the
random generator `oracle`: `n` values, each `0` or `1`. -/
def randomCol (n : Nat) (oracle : Nat → Nat) : Col :=
  (List.range n).map (fun i => Cell.int ((oracle i % 2 : Nat) : Int))

/-- The value returned by `preprocess_dataset`, plus the post-call state of
the caller's dataframe.  `dataAfter` records the in-place effect of the
source's assignments `data[treatment] = data[treatment].astype(int)` and
`data["random"] = np.random.randint(0, 2, size=len(data))` on the caller's
object; the remaining fields are the returned tuple
`(used_df, features_X, features_W, targets, treatment)`. -/
structure PreprocessResult where
  dataAfter : DataFrame
  used_df : DataFrame
  features_X : List String
  features_W : List String
  targets : List String
  treatment : String
deriving DecidableEq, Repr

/-- The straight-line tail of `preprocess_dataset` (source lines 159-176)
once the treatment column has been coerced to `tcolInt`: add the random
column, featurize, and partition the used features. -/
def ppResult (enc : String → Col → List (String × Col))
    (oracle : Nat → Nat) (data : DataFrame) (tcolInt : Col) :
    PreprocessResult :=
  let treatment := "treatment"
  let targets := ["y_factual"]
  let features := (colNames data).filter
    (fun c => !(treatment :: targets).contains c)
  let d1 := setCol data treatment tcolInt
  let d2 := setCol d1 "random" (randomCol (nRows d1) oracle)
  let used_df := featurize enc d2 features (treatment :: targets) false
  let used_features := (colNames used_df).filter
    (fun c => !(treatment :: targets).contains c)
  let features_X := used_features.filter (fun f => f != "random")
  let features_W := used_features.filter (fun f => !features_X.contains f)
  ⟨d2, used_df, features_X, features_W, targets, treatment⟩

/-- Embedding of `preprocess_dataset` (source lines 147-176).  The featurizer
encoding and the numpy random stream are parameters.  `data[treatment]`
raises `KeyError` when the column is absent; `astype(int)` raises the
library's `ValueError` when some value cannot be coerced to an integer. -/
def preprocess_dataset (enc : String → Col → List (String × Col))
    (oracle : Nat → Nat) (data : DataFrame) :
    Except PpError PreprocessResult :=
  match getCol? data "treatment" with
  | none => .error .keyError
  | some tcol =>
    match colToInt? tcol with
    | none => .error .valueError
    | some tcolInt => .ok (ppResult enc oracle data tcolInt)

/-- Decidable equality for `Except` values over decidable components. -/
instance {ε α : Type} [DecidableEq ε] [DecidableEq α] :
    DecidableEq (Except ε α)
  | .ok a, .ok b =>
    if h : a = b then isTrue (by rw [h])
    else isFalse (by intro he; cases he; exact h rfl)
  | .ok _, .error _ => isFalse (by intro h; cases h)
  | .error _, .ok _ => isFalse (by intro h; cases h)
  | .error e, .error f =>
    if h : e = f then isTrue (by rw [h])
    else isFalse (by intro he; cases he; exact h rfl)

/-- Modelled from the spec: a Trial Result of the Tuning Orchestrator
(`CausalTune.fit`, not under `src/`) — estimator identifier plus either the
comparable score of a successful fit or the failure reason (spec §3,
§4.4). -/
structure TrialResult where
  name : String
  outcome : Except String ℚ
deriving DecidableEq, Repr

/-- Modelled from the spec: the Tuning Orchestrator's trial loop (spec
§4.4) — each candidate is fitted in isolation (the opaque `fit` returns a
score or a failure reason) and a Trial Result is recorded for it whether or
not it succeeds; no failure aborts the loop. -/
def runTrials (fit : String → Except String ℚ)
    (candidates : List String) : List TrialResult :=
  candidates.map (fun c => ⟨c, fit c⟩)

/-- Whether an `Except` value is a success. -/
def exOk {ε α : Type} : Except ε α → Bool
  | .ok _ => true
  | .error _ => false

/-- The successful trials of a Run Result, as (identifier, score) pairs in
candidate order. -/
def successes (rr : List TrialResult) : List (String × ℚ) :=
  rr.filterMap (fun t =>
    match t.outcome with
    | .ok s => some (t.name, s)
    | .error _ => none)

/-- Keep the better-scoring of two trials, the earlier one on ties
(higher score wins, ties broken first-resolved — spec §4.5). -/
def better (acc y : String × ℚ) : String × ℚ :=
  if acc.2 < y.2 then y else acc

/-- The best-scoring successful trial of a Run Result, if any. -/
def bestEntry (rr : List TrialResult) : Option (String × ℚ) :=
  match successes rr with
  | [] => none
  | x :: rest => some (rest.foldl better x)

/-- Modelled from the spec: the error `select_best` raises when every trial
failed (spec §4.5, §7). -/
inductive SelectError where
  | noSuccessfulTrialError
deriving DecidableEq, Repr

/-- Modelled from the spec: `select_best` (spec §4.5) — the identifier of
the optimal-scoring successful trial, or `NoSuccessfulTrialError` when
every trial failed. -/
def select_best (rr : List TrialResult) : Except SelectError String :=
  match bestEntry rr with
  | none => .error .noSuccessfulTrialError
  | some p => .ok p.1

/-- The surviving column names of `synth_ihdp`. -/
def ihdpKeptCols : List String :=
  ["treatment", "y_factual"] ++ (List.range' 1 25).map (fun i => "x" ++ toString i)

/-- The column names exposed by a loader result (empty on a load error). -/
def exCols : Except LoadError DataFrame → List String
  | .ok d => colNames d
  | .error _ => []

/-! ## Concrete fixtures used by witnesses and counterexamples -/

/-- A raw 30-column CSV frame (stands in for the downloaded IHDP file). -/
def raw30 : DataFrame :=
  ⟨(List.range' 1 30).map (fun i => ("c" ++ toString i, ([] : Col)))⟩

/-- A raw 305-column CSV frame (stands in for the downloaded Amazon file). -/
def raw305 : DataFrame :=
  ⟨(List.range' 1 305).map (fun i => ("c" ++ toString i, ([] : Col)))⟩

/-- A two-row ACIC simulation frame with `z`, `y0`, `y1` columns. -/
def zymu0 : DataFrame :=
  ⟨[("z", [Cell.int 1, Cell.int 0]), ("y0", [Cell.int 10, Cell.int 20]),
    ("y1", [Cell.int 11, Cell.int 21])]⟩

/-- A small ACIC covariate frame. -/
def cov0 : DataFrame := ⟨[("x_1", [Cell.int 5, Cell.int 6])]⟩

/-- The dataframe `amazon_reviews` builds from `raw305`: the 302 renamed
columns, all empty. -/
def dfA0 : DataFrame := ⟨amazonCols.map (fun n => (n, ([] : Col)))⟩

/-- An identity-like featurizer encoding: every feature column is kept
unchanged. -/
def encId : String → Col → List (String × Col) := fun n c => [(n, c)]

/-- A constant random stream for the numpy generator. -/
def orc0 : Nat → Nat := fun _ => 0

/-- A well-formed one-row causal dataset: binary treatment, one outcome,
one covariate. -/
def df0 : DataFrame :=
  ⟨[("treatment", [Cell.int 1]), ("y_factual", [Cell.int 2]),
    ("x1", [Cell.int 3])]⟩

/-- A dataset whose treatment column holds NaN, which `astype(int)` cannot
coerce. -/
def dfBad : DataFrame :=
  ⟨[("treatment", [Cell.nan]), ("y_factual", [Cell.int 0])]⟩

/-- The preprocessing result on `df0` with the identity featurizer and the
constant random stream. -/
def r0 : PreprocessResult := ppResult encId orc0 df0 [Cell.int 1]

/-- A concrete fit function for the orchestrator model: estimator "b" fails,
"a" scores 1, everything else scores 2. -/
def fit0 : String → Except String ℚ := fun c =>
  if c = "b" then .error "boom"
  else if c = "a" then .ok 1
  else .ok 2

/-! ## Helper lemmas about the dataframe embedding -/

/-- A successful `setColumns` renames the columns to exactly `names`. -/
theorem setColumns_colNames {df : DataFrame} {names : List String}
    {d : DataFrame} (h : setColumns df names = some d) :
    colNames d = names := by
  unfold setColumns at h
  split at h
  case isTrue hl =>
    cases h
    unfold colNames
    exact List.map_fst_zip _ _ (by simp [hl])
  case isFalse => cases h

/-- Dropping columns filters the column-name list. -/
theorem colNames_dropCols (df : DataFrame) (ns : List String) :
    colNames (dropCols df ns) = (colNames df).filter (fun c => !ns.contains c) := by
  unfold colNames dropCols
  simp [List.filter_map]
  rfl

/-- A pair with first component `n` is found exactly when `n` occurs among
the first components. -/
theorem find?_fst_isSome {l : List (String × Col)} {n : String} :
    (l.find? (fun p => p.1 == n)).isSome = true ↔ n ∈ l.map Prod.fst := by
  induction l with
  | nil => simp
  | cons p l ih =>
    by_cases hp : p.1 = n
    · rw [List.find?_cons_of_pos _ (by simpa using hp)]
      simp [hp]
    · rw [List.find?_cons_of_neg _ (by simpa using hp)]
      simp only [List.map_cons, List.mem_cons, ih]
      constructor
      · exact Or.inr
      · rintro (h | h)
        · exact absurd h.symm hp
        · exact h

/-- A name is a column of `df` exactly when `getCol?` finds it. -/
theorem getCol?_isSome {df : DataFrame} {n : String} :
    (getCol? df n).isSome = true ↔ n ∈ colNames df := by
  unfold getCol? colNames
  have hm : (Option.map Prod.snd (df.cols.find? (fun p => p.1 == n))).isSome =
      (df.cols.find? (fun p => p.1 == n)).isSome := by
    cases df.cols.find? (fun p => p.1 == n) <;> rfl
  rw [hm]
  exact find?_fst_isSome

/-- On a 30-column raw CSV, `synth_ihdp` succeeds and its columns are
exactly `ihdpKeptCols`. -/
theorem synth_ihdp_colNames {raw : DataFrame} (h : raw.cols.length = 30) :
    (synth_ihdp raw).map colNames = .ok ihdpKeptCols := by
  unfold synth_ihdp
  have hsome : setColumns raw ihdpColNames =
      some ⟨ihdpColNames.zip (raw.cols.map Prod.snd)⟩ := by
    unfold setColumns
    rw [if_pos (by simp [h]; rfl)]
  rw [hsome]
  have hcols : colNames ⟨ihdpColNames.zip (raw.cols.map Prod.snd)⟩ = ihdpColNames := by
    unfold colNames
    refine List.map_fst_zip _ _ ?_
    have h30 : ihdpColNames.length = 30 := by decide
    simp [h, h30]
  simp only [Except.map]
  rw [colNames_dropCols, hcols]
  decide

/-- A successful `amazon_reviews` call returns a dataframe whose columns
are exactly `amazonCols`. -/
theorem amazon_ok_colNames {g : Bool} {fetch : String → DataFrame}
    {rating : String} {dfA : DataFrame}
    (h : amazon_reviews g fetch rating = .ok (some dfA)) :
    colNames dfA = amazonCols := by
  unfold amazon_reviews at h
  cases g with
  | false =>
    simp only [Bool.false_eq_true, if_false] at h
    split at h
    · cases h
    · simp at h
  | true =>
    simp only [if_true] at h
    split at h
    · cases h
    · split at h
      · cases h
      · split at h
        case _ => cases h
        case _ df3 hset =>
          cases h
          exact setColumns_colNames hset

/-! ## Claim theorems for the dataset loaders -/

/-- C7: every dataframe produced by the dataset loaders (`synth_ihdp`,
`synth_acic`, and `amazon_reviews` when it returns a dataframe) contains a
column named "treatment" and a column named "y_factual" (all remaining
columns being covariates). -/
theorem c7_loaders_treatment_yfactual (rawIhdp cov zymu : DataFrame)
    (cond : Nat) (g : Bool) (fetch : String → DataFrame) (rating : String)
    (dfA : DataFrame)
    (hI : rawIhdp.cols.length = 30)
    (hz : "z" ∈ colNames zymu) (h0 : "y0" ∈ colNames zymu)
    (h1 : "y1" ∈ colNames zymu)
    (hA : amazon_reviews g fetch rating = .ok (some dfA)) :
    ("treatment" ∈ exCols (synth_ihdp rawIhdp) ∧
      "y_factual" ∈ exCols (synth_ihdp rawIhdp)) ∧
    ("treatment" ∈ exCols (synth_acic cov zymu cond) ∧
      "y_factual" ∈ exCols (synth_acic cov zymu cond)) ∧
    ("treatment" ∈ colNames dfA ∧ "y_factual" ∈ colNames dfA) := by
  refine ⟨?_, ?_, ?_⟩
  · have hi := synth_ihdp_colNames hI
    cases hs : synth_ihdp rawIhdp with
    | error e => rw [hs] at hi; simp [Except.map] at hi
    | ok d =>
      rw [hs] at hi
      simp only [Except.map, Except.ok.injEq] at hi
      rw [show exCols (Except.ok d) = colNames d from rfl, hi]
      exact ⟨by decide, by decide⟩
  · obtain ⟨zc, hzc⟩ := Option.isSome_iff_exists.mp (getCol?_isSome.mpr hz)
    obtain ⟨y0c, h0c⟩ := Option.isSome_iff_exists.mp (getCol?_isSome.mpr h0)
    obtain ⟨y1c, h1c⟩ := Option.isSome_iff_exists.mp (getCol?_isSome.mpr h1)
    unfold synth_acic
    rw [hzc, h0c, h1c]
    simp [exCols, renameCol, colNames]
  · rw [amazon_ok_colNames hA]
    exact ⟨by decide, by decide⟩

/-- C7 witness: concrete raw inputs (a 30-column IHDP CSV, an ACIC frame
with `z`, `y0`, `y1`, and a 305-column Amazon CSV) satisfy the hypotheses,
and all three loaders expose "treatment" and "y_factual". -/
theorem c7_loaders_treatment_yfactual_witness :
    (raw30.cols.length = 30 ∧ "z" ∈ colNames zymu0 ∧
      "y0" ∈ colNames zymu0 ∧ "y1" ∈ colNames zymu0 ∧
      amazon_reviews true (fun _ => raw305) "pos" = .ok (some dfA0)) ∧
    (("treatment" ∈ exCols (synth_ihdp raw30) ∧
        "y_factual" ∈ exCols (synth_ihdp raw30)) ∧
      ("treatment" ∈ exCols (synth_acic cov0 zymu0 1) ∧
        "y_factual" ∈ exCols (synth_acic cov0 zymu0 1)) ∧
      ("treatment" ∈ colNames dfA0 ∧ "y_factual" ∈ colNames dfA0)) :=
  ⟨⟨by decide, by decide, by decide, by decide, by decide⟩,
    c7_loaders_treatment_yfactual raw30 cov0 zymu0 1 true (fun _ => raw305)
      "pos" dfA0 (by decide) (by decide) (by decide) (by decide) (by decide)⟩

/-- C8: in the dataframe returned by `synth_acic`, the first column is the
`z` column renamed to "treatment" (with its values unchanged), and the
"y_factual" column holds, row by row, `y1` when `z` is truthy and `y0`
otherwise. -/
theorem c8_acic_yfactual (cov zymu : DataFrame) (cond : Nat)
    (zc y0c y1c : Col)
    (hz : getCol? zymu "z" = some zc) (h0 : getCol? zymu "y0" = some y0c)
    (h1 : getCol? zymu "y1" = some y1c) :
    (synth_acic cov zymu cond).map
        (fun d => (d.cols.head?, getCol? d "y_factual")) =
      .ok (some ("treatment", zc),
        some ((List.range (nRows zymu)).map (fun i =>
          if cellTruthy (zc.getD i Cell.nan) then y1c.getD i Cell.nan
          else y0c.getD i Cell.nan))) := by
  unfold synth_acic
  rw [hz, h0, h1]
  simp [Except.map, renameCol, getCol?, List.find?]

/-- C8 witness: on a concrete two-row ACIC frame, the returned head column
is ("treatment", original z values) and y_factual selects y1 for the
treated row and y0 for the untreated row. -/
theorem c8_acic_yfactual_witness :
    (getCol? zymu0 "z" = some [Cell.int 1, Cell.int 0] ∧
      getCol? zymu0 "y0" = some [Cell.int 10, Cell.int 20] ∧
      getCol? zymu0 "y1" = some [Cell.int 11, Cell.int 21]) ∧
    (synth_acic cov0 zymu0 1).map
        (fun d => (d.cols.head?, getCol? d "y_factual")) =
      .ok (some ("treatment", [Cell.int 1, Cell.int 0]),
        some ((List.range (nRows zymu0)).map (fun i =>
          if cellTruthy (([Cell.int 1, Cell.int 0] : Col).getD i Cell.nan)
          then ([Cell.int 11, Cell.int 21] : Col).getD i Cell.nan
          else ([Cell.int 10, Cell.int 20] : Col).getD i Cell.nan))) :=
  ⟨⟨by decide, by decide, by decide⟩,
    c8_acic_yfactual cov0 zymu0 1 _ _ _ (by decide) (by decide) (by decide)⟩

/-- C9: on a 30-column raw CSV, the dataframe returned by `synth_ihdp` has
exactly the 27 columns "treatment", "y_factual", "x1" … "x25": the loader
drops precisely the columns whose names contain "y_cfactual" or "mu" as a
substring (y_cfactual, mu0, mu1) and keeps all others. -/
theorem c9_ihdp_column_set (raw : DataFrame) (h : raw.cols.length = 30) :
    (synth_ihdp raw).map colNames = .ok
      ["treatment", "y_factual", "x1", "x2", "x3", "x4", "x5", "x6", "x7",
        "x8", "x9", "x10", "x11", "x12", "x13", "x14", "x15", "x16", "x17",
        "x18", "x19", "x20", "x21", "x22", "x23", "x24", "x25"] := by
  rw [synth_ihdp_colNames h]
  decide

/-- C9 witness: a concrete 30-column raw frame satisfies the hypothesis and
yields exactly the 27 expected columns. -/
theorem c9_ihdp_column_set_witness :
    raw30.cols.length = 30 ∧
    (synth_ihdp raw30).map colNames = .ok
      ["treatment", "y_factual", "x1", "x2", "x3", "x4", "x5", "x6", "x7",
        "x8", "x9", "x10", "x11", "x12", "x13", "x14", "x15", "x16", "x17",
        "x18", "x19", "x20", "x21", "x22", "x23", "x24", "x25"] :=
  ⟨by decide, c9_ihdp_column_set raw30 (by decide)⟩

/-- C10: for any rating outside {"pos", "neg"}, `amazon_reviews` never
returns a dataframe — the failed assertion is swallowed, and the function
stops with an unbound-local error at the first use of `url`, whether or not
`gdown` is importable. -/
theorem c10_amazon_invalid_rating (g : Bool) (fetch : String → DataFrame)
    (rating : String) (hp : rating ≠ "pos") (hn : rating ≠ "neg") :
    amazon_reviews g fetch rating = .error .unboundLocalUrl := by
  unfold amazon_reviews
  rw [if_neg hp, if_neg hn]
  cases g <;> rfl

/-- C10 witness: the concrete rating "bad" is neither "pos" nor "neg" and
makes `amazon_reviews` fail with the unbound-local error on `url`. -/
theorem c10_amazon_invalid_rating_witness :
    ("bad" ≠ "pos") ∧ ("bad" ≠ "neg") ∧
    amazon_reviews true (fun _ => raw305) "bad" = .error .unboundLocalUrl :=
  ⟨by decide, by decide,
    c10_amazon_invalid_rating true (fun _ => raw305) "bad" (by decide)
      (by decide)⟩

/-! ## Helper lemmas about `setCol`, `featurize` and coercion -/

/-- Boolean `contains` agrees with list membership. -/
theorem contains_iff {α : Type} [BEq α] [LawfulBEq α] {l : List α} {a : α} :
    l.contains a = true ↔ a ∈ l :=
  List.elem_iff

/-- Overwriting an existing column leaves the column names unchanged. -/
theorem colNames_setCol_of_mem {df : DataFrame} {n : String} (c : Col)
    (h : n ∈ colNames df) : colNames (setCol df n c) = colNames df := by
  unfold setCol
  rw [if_pos h]
  unfold colNames
  simp only [List.map_map]
  apply List.map_congr_left
  intro p _
  by_cases hp : p.1 = n <;> simp [hp]

/-- Assigning a fresh column appends its name. -/
theorem colNames_setCol_of_not_mem {df : DataFrame} {n : String} (c : Col)
    (h : n ∉ colNames df) :
    colNames (setCol df n c) = colNames df ++ [n] := by
  unfold setCol
  rw [if_neg h]
  unfold colNames
  simp

/-- Column assignment never removes a column name. -/
theorem mem_colNames_setCol {df : DataFrame} {n a : String} (c : Col)
    (h : a ∈ colNames df) : a ∈ colNames (setCol df n c) := by
  by_cases hn : n ∈ colNames df
  · rw [colNames_setCol_of_mem c hn]; exact h
  · rw [colNames_setCol_of_not_mem c hn]; exact List.mem_append_left _ h

/-- Finding the overwritten name in the overwritten list returns the new
pair. -/
theorem find?_map_set (n : String) (c : Col) :
    ∀ (l : List (String × Col)), n ∈ l.map Prod.fst →
    (l.map (fun p => if p.1 = n then (n, c) else p)).find?
      (fun p => p.1 == n) = some (n, c) := by
  intro l
  induction l with
  | nil => intro h; simp at h
  | cons p t ih =>
    intro h
    by_cases hp : p.1 = n
    · rw [List.map_cons, show (if p.1 = n then (n, c) else p) = (n, c) from
        by simp [hp]]
      exact List.find?_cons_of_pos _ (by simp)
    · rw [List.map_cons, show (if p.1 = n then (n, c) else p) = p from
        by simp [hp]]
      rw [List.find?_cons_of_neg _ (by simpa using hp)]
      refine ih ?_
      simp only [List.map_cons, List.mem_cons] at h
      rcases h with h | h
      · exact absurd h.symm hp
      · exact h

/-- Finding a name absent from the prefix walks to the appended pair. -/
theorem find?_append_single_self (n : String) (c : Col) :
    ∀ (l : List (String × Col)), n ∉ l.map Prod.fst →
    (l ++ [(n, c)]).find? (fun p => p.1 == n) = some (n, c) := by
  intro l
  induction l with
  | nil =>
    intro _
    rw [List.nil_append]
    exact List.find?_cons_of_pos _ (by simp)
  | cons p t ih =>
    intro h
    have hp : p.1 ≠ n := fun he => h (by simp [he])
    rw [List.cons_append, List.find?_cons_of_neg _ (by simpa using hp)]
    exact ih (fun hm => h (List.mem_cons.mpr (Or.inr hm)))

/-- Looking up the column just assigned returns the assigned values. -/
theorem getCol?_setCol_self (df : DataFrame) (n : String) (c : Col) :
    getCol? (setCol df n c) n = some c := by
  unfold setCol
  by_cases hn : n ∈ colNames df
  · rw [if_pos hn]
    unfold getCol?
    rw [find?_map_set n c df.cols hn]
    rfl
  · rw [if_neg hn]
    unfold getCol?
    rw [find?_append_single_self n c df.cols hn]
    rfl

/-- Overwriting one name does not disturb lookups of a different name. -/
theorem find?_map_set_ne (n m : String) (c : Col) (hnm : m ≠ n) :
    ∀ (l : List (String × Col)),
    (l.map (fun p => if p.1 = n then (n, c) else p)).find?
      (fun p => p.1 == m) = l.find? (fun p => p.1 == m) := by
  intro l
  induction l with
  | nil => rfl
  | cons p t ih =>
    by_cases hp : p.1 = n
    · rw [List.map_cons, show (if p.1 = n then (n, c) else p) = (n, c) from
        by simp [hp]]
      rw [List.find?_cons_of_neg _ (by simp; exact fun he => hnm he.symm),
        List.find?_cons_of_neg _ (by simp [hp]; exact fun he => hnm he.symm)]
      exact ih
    · rw [List.map_cons, show (if p.1 = n then (n, c) else p) = p from
        by simp [hp]]
      by_cases hm : p.1 = m
      · rw [List.find?_cons_of_pos _ (by simpa using hm),
          List.find?_cons_of_pos _ (by simpa using hm)]
      · rw [List.find?_cons_of_neg _ (by simpa using hm),
          List.find?_cons_of_neg _ (by simpa using hm)]
        exact ih

/-- Appending a pair with a different name does not disturb lookups. -/
theorem find?_append_single_ne (n m : String) (c : Col) (hnm : m ≠ n)
    (l : List (String × Col)) :
    (l ++ [(n, c)]).find? (fun p => p.1 == m) =
      l.find? (fun p => p.1 == m) := by
  rw [List.find?_append]
  have h1 : List.find? (fun p => p.1 == m) [(n, c)] = none := by
    rw [List.find?_cons_of_neg _ (by simp; exact fun he => hnm he.symm)]
    rfl
  rw [h1, Option.or_none]

/-- Looking up a different column is unaffected by an assignment. -/
theorem getCol?_setCol_ne (df : DataFrame) {n m : String} (c : Col)
    (hnm : m ≠ n) : getCol? (setCol df n c) m = getCol? df m := by
  unfold setCol
  by_cases hn : n ∈ colNames df
  · rw [if_pos hn]
    unfold getCol?
    rw [find?_map_set_ne n m c hnm df.cols]
  · rw [if_neg hn]
    unfold getCol?
    rw [find?_append_single_ne n m c hnm df.cols]

/-- A pair whose featurization condition is false survives the flat map by
name. -/
theorem mem_map_fst_flatMap_keep (features excludeCols : List String)
    (enc : String → Col → List (String × Col)) :
    ∀ (l : List (String × Col)) (a : String), a ∈ l.map Prod.fst →
    (features.contains a && !excludeCols.contains a) = false →
    a ∈ (l.flatMap (fun p =>
      if features.contains p.1 && !excludeCols.contains p.1 then enc p.1 p.2
      else [p])).map Prod.fst := by
  intro l
  induction l with
  | nil => intro a ha _; simp at ha
  | cons p t ih =>
    intro a ha hc
    rw [List.flatMap_cons, List.map_append, List.mem_append]
    simp only [List.map_cons, List.mem_cons] at ha
    rcases ha with heq | ha
    · left
      rw [show (features.contains p.1 && !excludeCols.contains p.1) = false from
        heq ▸ hc]
      simp only [Bool.false_eq_true, if_false, List.map_cons, List.mem_cons]
      exact Or.inl heq
    · right
      exact ih a ha hc

/-- A column that is excluded from transformation, or is not a feature,
survives `featurize` by name. -/
theorem mem_colNames_featurize {enc : String → Col → List (String × Col)}
    {df : DataFrame} {features excludeCols : List String} {b : Bool}
    {a : String} (ha : a ∈ colNames df)
    (hcond : features.contains a = false ∨ excludeCols.contains a = true) :
    a ∈ colNames (featurize enc df features excludeCols b) := by
  unfold featurize colNames
  refine mem_map_fst_flatMap_keep features excludeCols enc df.cols a ha ?_
  rcases hcond with h | h <;> rw [h] <;> simp

/-- Random-column values are always 0 or 1. -/
theorem randomCol_binary {n : Nat} {oracle : Nat → Nat} {v : Cell}
    (hv : v ∈ randomCol n oracle) : v = Cell.int 0 ∨ v = Cell.int 1 := by
  unfold randomCol at hv
  simp only [List.mem_map, List.mem_range] at hv
  obtain ⟨i, -, rfl⟩ := hv
  rcases Nat.mod_two_eq_zero_or_one (oracle i) with h | h <;> simp [h]

/-- Successful column coercion yields integer cells only. -/
theorem colToInt?_isInt : ∀ {c c' : Col}, colToInt? c = some c' →
    ∀ v ∈ c', cellIsInt v = true := by
  intro c
  induction c with
  | nil =>
    intro c' h v hv
    unfold colToInt? at h
    cases h
    simp at hv
  | cons a t ih =>
    intro c' h v hv
    unfold colToInt? at h
    cases hca : cellToInt? a with
    | none => rw [hca] at h; cases h
    | some nv =>
      rw [hca] at h
      cases hct : colToInt? t with
      | none => rw [hct] at h; cases h
      | some t' =>
        rw [hct] at h
        cases h
        rcases List.mem_cons.mp hv with rfl | hvt
        · rfl
        · exact ih hct v hvt

/-- Eliminate a successful `preprocess_dataset` call into its pieces: the
treatment column is present, it coerces, and the result is `ppResult`. -/
theorem preprocess_ok_elim {enc : String → Col → List (String × Col)}
    {oracle : Nat → Nat} {data : DataFrame} {r : PreprocessResult}
    (h : preprocess_dataset enc oracle data = .ok r) :
    ∃ tc tci, getCol? data "treatment" = some tc ∧ colToInt? tc = some tci ∧
      r = ppResult enc oracle data tci := by
  unfold preprocess_dataset at h
  split at h
  · cases h
  · rename_i tc hg
    split at h
    · cases h
    · rename_i tci hc
      injection h with h2
      exact ⟨tc, tci, hg, hc, h2.symm⟩

/-- A membership failure makes boolean `contains` false. -/
theorem not_contains_of_not_mem {α : Type} [BEq α] [LawfulBEq α]
    {l : List α} {a : α} (h : a ∉ l) : l.contains a = false :=
  Bool.eq_false_iff.mpr (fun hc => h (contains_iff.mp hc))

/-- An element of a list is never in the sublist filtered to exclude it by
`contains`. -/
theorem not_mem_filter_not_contains {uf X : List String} {c : String}
    (hX : c ∈ X) : c ∉ uf.filter (fun f => !X.contains f) := by
  intro hW
  have hb := (List.mem_filter.mp hW).2
  rw [Bool.not_eq_true'] at hb
  have ht := contains_iff.mpr hX
  rw [hb] at ht
  exact Bool.noConfusion ht

/-- Surviving the treatment-and-targets filter means differing from both
names. -/
theorem ty_filter_facts {c : String}
    (hb : (!(["treatment", "y_factual"] : List String).contains c) = true) :
    c ≠ "treatment" ∧ c ≠ "y_factual" := by
  rw [Bool.not_eq_true'] at hb
  constructor <;> intro he <;> subst he <;> exact absurd hb (by decide)

/-- A name differing from both "treatment" and "y_factual" survives the
treatment-and-targets filter. -/
theorem ty_filter_intro {c : String} (h1 : c ≠ "treatment")
    (h2 : c ≠ "y_factual") :
    (!(["treatment", "y_factual"] : List String).contains c) = true := by
  rw [Bool.not_eq_true']
  exact not_contains_of_not_mem (by simp [h1, h2])

/-! ## Claim theorems for the preprocessor -/

/-- C2: for every input dataset with at least one row and a finite binary
treatment column on which `preprocess_dataset` succeeds, the returned
`features_X` and `features_W` are disjoint, and the treatment column name
belongs to neither. -/
theorem c2_features_disjoint (enc : String → Col → List (String × Col))
    (oracle : Nat → Nat) (data : DataFrame) (r : PreprocessResult)
    (_hrow : 0 < nRows data)
    (_hbin : ∀ v ∈ (getCol? data "treatment").getD [],
      v = Cell.int 0 ∨ v = Cell.int 1)
    (h : preprocess_dataset enc oracle data = .ok r) :
    (∀ f ∈ r.features_X, f ∉ r.features_W) ∧
    r.treatment ∉ r.features_X ∧ r.treatment ∉ r.features_W := by
  obtain ⟨tc, tci, hg, hc, rfl⟩ := preprocess_ok_elim h
  simp only [ppResult]
  refine ⟨?_, ?_, ?_⟩
  · intro f hfX hfW
    have hb := (List.mem_filter.mp hfW).2
    rw [Bool.not_eq_true'] at hb
    have ht := contains_iff.mpr hfX
    rw [hb] at ht
    exact Bool.noConfusion ht
  · intro hX
    have hb := (List.mem_filter.mp (List.mem_filter.mp hX).1).2
    exact absurd rfl (ty_filter_facts hb).1
  · intro hW
    have hb := (List.mem_filter.mp (List.mem_filter.mp hW).1).2
    exact absurd rfl (ty_filter_facts hb).1

/-- C2 witness: on the concrete one-row binary-treatment dataset `df0`, the
feature sets are disjoint and exclude the treatment column. -/
theorem c2_features_disjoint_witness :
    (0 < nRows df0 ∧
      (∀ v ∈ (getCol? df0 "treatment").getD [],
        v = Cell.int 0 ∨ v = Cell.int 1) ∧
      preprocess_dataset encId orc0 df0 = .ok r0) ∧
    ((∀ f ∈ r0.features_X, f ∉ r0.features_W) ∧
      r0.treatment ∉ r0.features_X ∧ r0.treatment ∉ r0.features_W) :=
  ⟨⟨by decide, by decide, by decide⟩,
    c2_features_disjoint encId orc0 df0 r0 (by decide) (by decide)
      (by decide)⟩

/-- C3 counterexample: on a dataset whose treatment column holds NaN, the
code fails with the generic library coercion error (`ValueError` from
`astype(int)`), not with the `InvalidTreatmentError` the claim names. -/
theorem c3_counterexample :
    preprocess_dataset encId orc0 dfBad = .error .valueError ∧
    preprocess_dataset encId orc0 dfBad ≠ .error .invalidTreatmentError :=
  ⟨by decide, by decide⟩

/-- C3 amended: `preprocess_dataset` coerces the treatment column to an
integer domain, and when the values cannot be coerced it fails with the
generic library coercion error (`ValueError`), not with a dedicated
`InvalidTreatmentError`. -/
theorem c3_coercion_library_error (enc : String → Col → List (String × Col))
    (oracle : Nat → Nat) (data : DataFrame) (tc : Col)
    (hg : getCol? data "treatment" = some tc) :
    (match colToInt? tc with
     | none => preprocess_dataset enc oracle data = .error .valueError
     | some tci =>
       (preprocess_dataset enc oracle data).map
         (fun r => getCol? r.dataAfter "treatment") = .ok (some tci) ∧
       ∀ v ∈ tci, cellIsInt v = true) := by
  cases hc : colToInt? tc with
  | none => simp only [preprocess_dataset, hg, hc]
  | some tci =>
    simp only [preprocess_dataset, hg, hc, Except.map]
    constructor
    · simp only [ppResult]
      rw [getCol?_setCol_ne _ _ (by decide), getCol?_setCol_self]
    · exact colToInt?_isInt hc

/-- C3 amended witness: on `df0` the treatment column is present and
coercible, and the post-call treatment column holds the coerced integer
values. -/
theorem c3_coercion_library_error_witness :
    (getCol? df0 "treatment" = some [Cell.int 1]) ∧
    (match colToInt? [Cell.int 1] with
     | none => preprocess_dataset encId orc0 df0 = .error .valueError
     | some tci =>
       (preprocess_dataset encId orc0 df0).map
         (fun r => getCol? r.dataAfter "treatment") = .ok (some tci) ∧
       ∀ v ∈ tci, cellIsInt v = true) :=
  ⟨by decide, c3_coercion_library_error encId orc0 df0 [Cell.int 1]
    (by decide)⟩

/-- C4 counterexample: on the concrete dataset `df0`, the post-call state of
the caller's dataframe differs from its pre-call state — `preprocess_dataset`
mutates the input in place, so "original dataset is not mutated" fails. -/
theorem c4_counterexample :
    (preprocess_dataset encId orc0 df0).map PreprocessResult.dataAfter ≠
      .ok df0 := by decide

/-- C4 amended: `preprocess_dataset` mutates the caller's dataset in place —
after a successful call the original dataframe has gained a "random" column
and its treatment column holds the integer-coerced values (the returned
`used_df` is a separate derived frame). -/
theorem c4_input_mutated (enc : String → Col → List (String × Col))
    (oracle : Nat → Nat) (data : DataFrame) (r : PreprocessResult)
    (hrand : "random" ∉ colNames data)
    (h : preprocess_dataset enc oracle data = .ok r) :
    colNames r.dataAfter = colNames data ++ ["random"] ∧
    getCol? r.dataAfter "treatment" =
      (getCol? data "treatment").bind colToInt? := by
  obtain ⟨tc, tci, hg, hc, rfl⟩ := preprocess_ok_elim h
  have htmem : "treatment" ∈ colNames data :=
    getCol?_isSome.mp (by rw [hg]; rfl)
  have hd1names : colNames (setCol data "treatment" tci) = colNames data :=
    colNames_setCol_of_mem _ htmem
  simp only [ppResult]
  constructor
  · rw [colNames_setCol_of_not_mem _ (by rw [hd1names]; exact hrand),
      hd1names]
  · rw [getCol?_setCol_ne _ _ (by decide), getCol?_setCol_self, hg]
    exact hc.symm

/-- C4 amended witness: on `df0` the post-call dataframe is the original
plus the "random" column, with the treatment column coerced. -/
theorem c4_input_mutated_witness :
    ("random" ∉ colNames df0 ∧
      preprocess_dataset encId orc0 df0 = .ok r0) ∧
    (colNames r0.dataAfter = colNames df0 ++ ["random"] ∧
      getCol? r0.dataAfter "treatment" =
        (getCol? df0 "treatment").bind colToInt?) :=
  ⟨⟨by decide, by decide⟩,
    c4_input_mutated encId orc0 df0 r0 (by decide) (by decide)⟩

/-- C5: `preprocess_dataset` appends a column named "random" whose values
are all binary (0/1, drawn from the random stream), and this column is
always routed into `features_W` and never into `features_X`. -/
theorem c5_random_column (enc : String → Col → List (String × Col))
    (oracle : Nat → Nat) (data : DataFrame) (r : PreprocessResult)
    (hrand : "random" ∉ colNames data)
    (h : preprocess_dataset enc oracle data = .ok r) :
    colNames r.dataAfter = colNames data ++ ["random"] ∧
    (∀ v ∈ (getCol? r.dataAfter "random").getD [],
      v = Cell.int 0 ∨ v = Cell.int 1) ∧
    "random" ∈ r.features_W ∧ "random" ∉ r.features_X := by
  obtain ⟨tc, tci, hg, hc, rfl⟩ := preprocess_ok_elim h
  have htmem : "treatment" ∈ colNames data :=
    getCol?_isSome.mp (by rw [hg]; rfl)
  have hd1names : colNames (setCol data "treatment" tci) = colNames data :=
    colNames_setCol_of_mem _ htmem
  simp only [ppResult]
  refine ⟨?_, ?_, ?_, ?_⟩
  · rw [colNames_setCol_of_not_mem _ (by rw [hd1names]; exact hrand),
      hd1names]
  · rw [getCol?_setCol_self]
    intro v hv
    exact randomCol_binary hv
  · have hmem2 : "random" ∈ colNames (setCol
        (setCol data "treatment" tci) "random"
        (randomCol (nRows (setCol data "treatment" tci)) oracle)) := by
      rw [colNames_setCol_of_not_mem _ (by rw [hd1names]; exact hrand)]
      exact List.mem_append_right _ (by simp)
    have hfeat : ((colNames data).filter
        (fun c => !(["treatment", "y_factual"] : List String).contains c)
          ).contains "random" = false := by
      apply not_contains_of_not_mem
      intro hm
      exact hrand (List.mem_filter.mp hm).1
    refine List.mem_filter.mpr
      ⟨List.mem_filter.mpr
        ⟨mem_colNames_featurize hmem2 (Or.inl hfeat), by decide⟩, ?_⟩
    rw [Bool.not_eq_true']
    apply not_contains_of_not_mem
    intro hX
    have hb := (List.mem_filter.mp hX).2
    simp at hb
  · intro hX
    have hb := (List.mem_filter.mp hX).2
    simp at hb

/-- C5 witness: on `df0`, the "random" column is appended with binary
values, lands in `features_W` and not in `features_X`. -/
theorem c5_random_column_witness :
    ("random" ∉ colNames df0 ∧
      preprocess_dataset encId orc0 df0 = .ok r0) ∧
    (colNames r0.dataAfter = colNames df0 ++ ["random"] ∧
      (∀ v ∈ (getCol? r0.dataAfter "random").getD [],
        v = Cell.int 0 ∨ v = Cell.int 1) ∧
      "random" ∈ r0.features_W ∧ "random" ∉ r0.features_X) :=
  ⟨⟨by decide, by decide⟩,
    c5_random_column encId orc0 df0 r0 (by decide) (by decide)⟩

/-- C6: after a successful `preprocess_dataset` call, every column of the
returned dataframe belongs to exactly one of the four groups `features_X`,
`features_W`, the treatment column, the outcome columns — and all four
groups are drawn from the returned dataframe's columns. -/
theorem c6_used_columns_partition (enc : String → Col → List (String × Col))
    (oracle : Nat → Nat) (data : DataFrame) (r : PreprocessResult)
    (hy : "y_factual" ∈ colNames data)
    (h : preprocess_dataset enc oracle data = .ok r) :
    (∀ c ∈ colNames r.used_df,
      c ∈ r.features_X ∨ c ∈ r.features_W ∨ c = r.treatment ∨
        c ∈ r.targets) ∧
    (∀ c ∈ r.features_X, c ∈ colNames r.used_df ∧ c ∉ r.features_W ∧
      c ≠ r.treatment ∧ c ∉ r.targets) ∧
    (∀ c ∈ r.features_W, c ∈ colNames r.used_df ∧ c ∉ r.features_X ∧
      c ≠ r.treatment ∧ c ∉ r.targets) ∧
    (r.treatment ∈ colNames r.used_df ∧ r.treatment ∉ r.targets) ∧
    (∀ c ∈ r.targets, c ∈ colNames r.used_df) := by
  obtain ⟨tc, tci, hg, hc, rfl⟩ := preprocess_ok_elim h
  have htmem : "treatment" ∈ colNames data :=
    getCol?_isSome.mp (by rw [hg]; rfl)
  simp only [ppResult]
  refine ⟨?_, ?_, ?_, ⟨?_, by decide⟩, ?_⟩
  · intro c hcmem
    by_cases hct : c = "treatment"
    · exact Or.inr (Or.inr (Or.inl hct))
    · by_cases hcy : c = "y_factual"
      · exact Or.inr (Or.inr (Or.inr (by simp [hcy])))
      · by_cases hcX : (c != "random") = true
        · exact Or.inl (List.mem_filter.mpr
            ⟨List.mem_filter.mpr ⟨hcmem, ty_filter_intro hct hcy⟩, hcX⟩)
        · refine Or.inr (Or.inl (List.mem_filter.mpr
            ⟨List.mem_filter.mpr ⟨hcmem, ty_filter_intro hct hcy⟩, ?_⟩))
          rw [Bool.not_eq_true']
          apply not_contains_of_not_mem
          intro hmX
          exact hcX (List.mem_filter.mp hmX).2
  · intro c hcX
    have hcuf := (List.mem_filter.mp hcX).1
    have hfacts := ty_filter_facts (List.mem_filter.mp hcuf).2
    refine ⟨(List.mem_filter.mp hcuf).1,
      not_mem_filter_not_contains hcX, hfacts.1, by simp [hfacts.2]⟩
  · intro c hcW
    have hcuf := (List.mem_filter.mp hcW).1
    have hfacts := ty_filter_facts (List.mem_filter.mp hcuf).2
    have hb := (List.mem_filter.mp hcW).2
    rw [Bool.not_eq_true'] at hb
    refine ⟨(List.mem_filter.mp hcuf).1, ?_, hfacts.1, by simp [hfacts.2]⟩
    intro hmX
    have ht := contains_iff.mpr hmX
    rw [hb] at ht
    exact Bool.noConfusion ht
  · refine mem_colNames_featurize ?_ (Or.inr (by decide))
    exact mem_colNames_setCol _ (mem_colNames_setCol _ htmem)
  · intro c hcT
    have hcy : c = "y_factual" := by simpa using hcT
    subst hcy
    refine mem_colNames_featurize ?_ (Or.inr (by decide))
    exact mem_colNames_setCol _ (mem_colNames_setCol _ hy)

/-- C6 witness: on `df0` the returned columns are exactly partitioned into
`features_X`, `features_W`, treatment, and targets. -/
theorem c6_used_columns_partition_witness :
    ("y_factual" ∈ colNames df0 ∧
      preprocess_dataset encId orc0 df0 = .ok r0) ∧
    ((∀ c ∈ colNames r0.used_df,
        c ∈ r0.features_X ∨ c ∈ r0.features_W ∨ c = r0.treatment ∨
          c ∈ r0.targets) ∧
      (∀ c ∈ r0.features_X, c ∈ colNames r0.used_df ∧ c ∉ r0.features_W ∧
        c ≠ r0.treatment ∧ c ∉ r0.targets) ∧
      (∀ c ∈ r0.features_W, c ∈ colNames r0.used_df ∧ c ∉ r0.features_X ∧
        c ≠ r0.treatment ∧ c ∉ r0.targets) ∧
      (r0.treatment ∈ colNames r0.used_df ∧ r0.treatment ∉ r0.targets) ∧
      (∀ c ∈ r0.targets, c ∈ colNames r0.used_df)) :=
  ⟨⟨by decide, by decide⟩,
    c6_used_columns_partition encId orc0 df0 r0 (by decide) (by decide)⟩

/-! ## Claim theorem for the orchestrator / selector model -/

/-- The running best over a fold is one of the visited entries. -/
theorem foldl_better_mem : ∀ (l : List (String × ℚ)) (x : String × ℚ),
    l.foldl better x ∈ x :: l := by
  intro l
  induction l with
  | nil => intro x; simp
  | cons a t ih =>
    intro x
    rw [List.foldl_cons]
    rcases List.mem_cons.mp (ih (better x a)) with he | ht
    · rw [he]
      unfold better
      by_cases hlt : x.2 < a.2
      · rw [if_pos hlt]
        exact List.mem_cons.mpr (Or.inr (List.mem_cons.mpr (Or.inl rfl)))
      · rw [if_neg hlt]
        exact List.mem_cons.mpr (Or.inl rfl)
    · exact List.mem_cons.mpr (Or.inr (List.mem_cons.mpr (Or.inr ht)))

/-- The running best over a fold dominates every visited entry. -/
theorem foldl_better_le : ∀ (l : List (String × ℚ)) (x y : String × ℚ),
    y ∈ x :: l → y.2 ≤ (l.foldl better x).2 := by
  intro l
  induction l with
  | nil =>
    intro x y hy
    rcases List.mem_cons.mp hy with rfl | h
    · exact le_refl _
    · simp at h
  | cons a t ih =>
    intro x y hy
    rw [List.foldl_cons]
    have hbx : x.2 ≤ (better x a).2 := by
      unfold better
      by_cases hlt : x.2 < a.2
      · rw [if_pos hlt]; exact le_of_lt hlt
      · rw [if_neg hlt]
    have hba : a.2 ≤ (better x a).2 := by
      unfold better
      by_cases hlt : x.2 < a.2
      · rw [if_pos hlt]
      · rw [if_neg hlt]; exact le_of_not_lt hlt
    have hhead := ih (better x a) (better x a)
      (List.mem_cons.mpr (Or.inl rfl))
    rcases List.mem_cons.mp hy with rfl | hy2
    · exact le_trans hbx hhead
    · rcases List.mem_cons.mp hy2 with rfl | hy3
      · exact le_trans hba hhead
      · exact ih (better x a) y (List.mem_cons.mpr (Or.inr hy3))

/-- A Run Result has no successes exactly when every candidate's fit
failed. -/
theorem successes_eq_nil_iff (fit : String → Except String ℚ)
    (candidates : List String) :
    successes (runTrials fit candidates) = [] ↔
      ∀ c ∈ candidates, exOk (fit c) = false := by
  unfold successes runTrials
  rw [List.filterMap_map, List.filterMap_eq_nil_iff]
  constructor
  · intro h c hm
    have hc := h c hm
    cases hfc : fit c with
    | ok s => rw [Function.comp_apply, hfc] at hc; simp at hc
    | error e => simp [exOk, hfc]
  · intro h c hm
    have hc := h c hm
    cases hfc : fit c with
    | ok s => rw [hfc] at hc; simp [exOk] at hc
    | error e => simp [Function.comp_apply, hfc]

/-- C1 (spec-modelled): for every run over a candidate list, the Run Result
has exactly one Trial Result per candidate in order (so no single failure
aborts the run), `select_best` raises `NoSuccessfulTrialError` exactly when
every candidate's fit failed, and otherwise it returns the identifier of a
successful trial whose score dominates all successful trials. -/
theorem c1_orchestrator_failure_tolerance (fit : String → Except String ℚ)
    (candidates : List String) :
    ((runTrials fit candidates).map TrialResult.name = candidates) ∧
    ((runTrials fit candidates).length = candidates.length) ∧
    ((select_best (runTrials fit candidates) =
        .error .noSuccessfulTrialError) ↔
      ∀ c ∈ candidates, exOk (fit c) = false) ∧
    (match bestEntry (runTrials fit candidates) with
     | none => ∀ c ∈ candidates, exOk (fit c) = false
     | some p =>
       select_best (runTrials fit candidates) = .ok p.1 ∧
       p ∈ successes (runTrials fit candidates) ∧
       ∀ q ∈ successes (runTrials fit candidates), q.2 ≤ p.2) := by
  have hbe_nil : bestEntry (runTrials fit candidates) = none ↔
      successes (runTrials fit candidates) = [] := by
    cases hs : successes (runTrials fit candidates) with
    | nil => simp [bestEntry, hs]
    | cons x rest => simp [bestEntry, hs]
  refine ⟨?_, ?_, ?_, ?_⟩
  · unfold runTrials
    rw [List.map_map]
    show List.map (fun c => c) candidates = candidates
    exact List.map_id' candidates
  · unfold runTrials
    rw [List.length_map]
  · constructor
    · intro he
      cases hb : bestEntry (runTrials fit candidates) with
      | some p => rw [select_best, hb] at he; cases he
      | none =>
        exact (successes_eq_nil_iff fit candidates).mp (hbe_nil.mp hb)
    · intro hall
      have hnil := (successes_eq_nil_iff fit candidates).mpr hall
      rw [select_best, hbe_nil.mpr hnil]
  · cases hb : bestEntry (runTrials fit candidates) with
    | none =>
      exact (successes_eq_nil_iff fit candidates).mp (hbe_nil.mp hb)
    | some p =>
      have hsel : select_best (runTrials fit candidates) = .ok p.1 := by
        rw [select_best, hb]
      cases hs : successes (runTrials fit candidates) with
      | nil => rw [bestEntry, hs] at hb; cases hb
      | cons x rest =>
        rw [bestEntry, hs] at hb
        injection hb with hb2
        refine ⟨hsel, ?_, ?_⟩
        · rw [← hb2]
          exact foldl_better_mem rest x
        · intro q hq
          rw [← hb2]
          exact foldl_better_le rest x q hq

/-- C1 witness: with the concrete fit function `fit0` over candidates
["a", "b", "c"] (where "b" fails), the run keeps all three trials and
`select_best` returns the top scorer "c"; with an always-failing fit over
two candidates, `select_best` raises `NoSuccessfulTrialError`. -/
theorem c1_orchestrator_failure_tolerance_witness :
    (runTrials fit0 ["a", "b", "c"]).length = 3 ∧
    select_best (runTrials fit0 ["a", "b", "c"]) = .ok "c" ∧
    select_best (runTrials (fun _ => .error "boom") ["a", "b"]) =
      .error .noSuccessfulTrialError := by
  refine ⟨?_, ?_, ?_⟩
  · exact (c1_orchestrator_failure_tolerance fit0 ["a", "b", "c"]).2.1
  · have h := (c1_orchestrator_failure_tolerance fit0 ["a", "b", "c"]).2.2.2
    have h2 : select_best (runTrials fit0 ["a", "b", "c"]) =
        .ok ("c", (2 : ℚ)).1 ∧
        ("c", (2 : ℚ)) ∈ successes (runTrials fit0 ["a", "b", "c"]) ∧
        ∀ q ∈ successes (runTrials fit0 ["a", "b", "c"]),
          q.2 ≤ ("c", (2 : ℚ)).2 := h
    exact h2.1
  · exact (c1_orchestrator_failure_tolerance (fun _ => .error "boom")
      ["a", "b"]).2.2.1.mpr (by decide)

end AutoCausality
